import Mathlib

/-!
Shallow embedding of aw_superproductivity_watcher.py, the single source file of
aw-watcher-superproductivity. The embedding models the parse_backup_and_send
diff pass (freshness gate, project-name resolution, dual-dimension walk over the
time-tracking table, per-task delta against the persisted cache, high-water-mark
update, cache save) and the line scan performed by the snapshot reader.

Python dicts are modelled as association lists in insertion order (keys assumed
distinct, as produced by the JSON decoder); Python ints as Int (arbitrary
precision, like Python); absent JSON fields as Option; the float division
performed for the event duration as exact division in the rationals. The UTC
timestamp produced by datetime.fromtimestamp is represented by the epoch
millisecond value it is derived from, a faithful representation since the
conversion is injective.
-/

namespace AwSp

/-- Per-day cumulative seconds, a Python dict day-key to number. -/
abbrev DayMap := List (String × Int)

/-- The previous_time_spent_cache: task id to day-key to cumulative seconds. -/
abbrev Cache := List (String × DayMap)

/-- One entry of mainModelData.task.entities. Absent fields are none. -/
structure Task where
  id : String
  title : Option String
  projectId : Option String
  timeSpentOnDay : DayMap
deriving Repr, DecidableEq

/-- One entry of project.entities; only the title is consulted. -/
structure Project where
  title : Option String
deriving Repr, DecidableEq

/-- One session record of the time-tracking table: fields s and e are
epoch-millisecond start and end, possibly absent. -/
structure SessionRec where
  s : Option Int
  e : Option Int
deriving Repr, DecidableEq

/-- Entity id to day-key to session record: one tracking dimension of
mainModelData.timeTracking. -/
abbrev TrackTable := List (String × List (String × SessionRec))

/-- The parsed backup record, restricted to the fields the pass reads. -/
structure Snapshot where
  lastUpdate : Int
  tasks : List (String × Task)
  projects : List (String × Project)
  ttProject : TrackTable
  ttTag : TrackTable
deriving Repr, DecidableEq

/-- Python truthiness of an optional integer: false when absent or zero,
matching the test start_ms and end_ms on line 126. -/
def truthy : Option Int → Bool
  | none => false
  | some v => v != 0

/-- First-match association-list lookup, the dict access of the source. -/
def lookupA {β : Type} : List (String × β) → String → Option β
  | [], _ => none
  | (k, v) :: rest, key => if k = key then some v else lookupA rest key

/-- Dict assignment: overwrite in place, append when the key is new. -/
def setAssoc {β : Type} : List (String × β) → String → β → List (String × β)
  | [], k, v => [(k, v)]
  | (k1, v1) :: rest, k, v =>
    if k1 = k then (k, v) :: rest else (k1, v1) :: setAssoc rest k v

/-- Lookup with default, modelling dict.get with a fallback value. -/
def lookupD (l : List (String × String)) (k d : String) : String :=
  (lookupA l k).getD d

/-- The cached cumulative seconds for a task and day, defaulting to 0:
previous_time_spent_cache.get(task_id, dict()).get(day, 0). -/
def cacheGet (c : Cache) (tid day : String) : Int :=
  match lookupA c tid with
  | some m => (lookupA m day).getD 0
  | none => 0

/-- The two-step cache write of lines 140 to 142: create the inner dict when
the task id is new, then assign the day entry. -/
def cacheSet (c : Cache) (tid day : String) (v : Int) : Cache :=
  setAssoc c tid (setAssoc ((lookupA c tid).getD []) day v)

/-- Line 111: project id to title, with the placeholder for a missing title. -/
def projectNames (projects : List (String × Project)) : List (String × String) :=
  projects.map (fun p => (p.1, p.2.title.getD "Unnamed Project"))

/-- Line 130 to 133: the tasks whose projectId equals the entity id and whose
timeSpentOnDay dict contains the session day. -/
def associatedTasks (tasks : List (String × Task)) (pid day : String) : List Task :=
  (tasks.map Prod.snd).filter
    (fun t => t.projectId == some pid && (lookupA t.timeSpentOnDay day).isSome)

/-- One record of what a single insert_event call sends and logs: the Event
fields timestampMs (the instant passed as timestamp, in epoch ms) and the
duration, together with the data payload source, projectOrTagId, title, plus
the logged day and timeDiff, plus endMs, the end of the session the event came
from, recorded for bookkeeping (endMs is determined by timestampMs and the
duration). The duration passed to the Event constructor is the float division
of durationMs by 1000; it is kept here as its exact numerator durationMs, and
its value in seconds is the derived Emitted.durationSecQ below. -/
structure Emitted where
  source : String
  projectOrTagId : String
  title : String
  day : String
  timeDiff : Int
  timestampMs : Int
  durationMs : Int
  endMs : Int
deriving Repr, DecidableEq

/-- The duration in seconds handed to the Event constructor, as an exact
rational: (end_ms - start_ms) / 1000. -/
def Emitted.durationSecQ (em : Emitted) : ℚ := (em.durationMs : ℚ) / 1000

/-- Lines 134 to 153, the loop over associated_tasks: compute the delta against
the cache, update the cache unconditionally, and emit one event per task. -/
def processTasks (src pn day : String) (startMs endMs : Int) :
    List Task → Cache → Cache × List Emitted
  | [], cache => (cache, [])
  | t :: rest, cache =>
    let spent := (lookupA t.timeSpentOnDay day).getD 0
    let prev := cacheGet cache t.id day
    let em : Emitted :=
      { source := src
        projectOrTagId := pn
        title := t.title.getD "Unnamed Task"
        day := day
        timeDiff := spent - prev
        timestampMs := startMs
        durationMs := endMs - startMs
        endMs := endMs }
    let r := processTasks src pn day startMs endMs rest (cacheSet cache t.id day spent)
    (r.1, em :: r.2)

/-- Lines 123 to 156, the loop over the days of one entity: skip a session
whose start or end is absent or zero or whose end does not exceed the running
high-water mark; otherwise process its associated tasks and then raise the
mark to the session end. Returns the final mark, the cache and the events. -/
def processDays (src pid pn : String) (tasks : List (String × Task)) :
    List (String × SessionRec) → Int → Cache → Int × Cache × List Emitted
  | [], mark, cache => (mark, cache, [])
  | (day, sess) :: rest, mark, cache =>
    if truthy sess.s = true ∧ truthy sess.e = true ∧ mark < sess.e.getD 0 then
      let startMs := sess.s.getD 0
      let endMs := sess.e.getD 0
      let r1 := processTasks src pn day startMs endMs (associatedTasks tasks pid day) cache
      let mark1 := if mark < endMs then endMs else mark
      let r2 := processDays src pid pn tasks rest mark1 r1.1
      (r2.1, r2.2.1, r1.2 ++ r2.2.2)
    else
      processDays src pid pn tasks rest mark cache

/-- Lines 121 to 156, the loop over the entities of one tracking dimension,
resolving the display name with the raw id as fallback. -/
def processEntities (src : String) (names : List (String × String))
    (tasks : List (String × Task)) :
    TrackTable → Int → Cache → Int × Cache × List Emitted
  | [], mark, cache => (mark, cache, [])
  | (pid, days) :: rest, mark, cache =>
    let r1 := processDays src pid (lookupD names pid pid) tasks days mark cache
    let r2 := processEntities src names tasks rest r1.1 r1.2.1
    (r2.1, r2.2.1, r1.2.2 ++ r2.2.2)

/-- The module-level mutable state of the watcher process that the pass reads
and writes: the two high-water-mark components, the in-memory cache, and the
contents of the cache file written by save_cache. -/
structure WatcherState where
  lastSessionEndMs : Int
  lastUpdateTimestamp : Int
  cache : Cache
  persistedCache : Cache
deriving Repr, DecidableEq

/-- The state at process start: both marks zero, caches empty (lines 24, 25,
29, with an absent cache file). -/
def initialState : WatcherState :=
  { lastSessionEndMs := 0, lastUpdateTimestamp := 0, cache := [], persistedCache := [] }

/-- Lines 102 to 158 of parse_backup_and_send, applied to a parsed snapshot:
the freshness gate, the walk over the project dimension then the tag dimension,
and the final save_cache. Returns the new state and the emitted events. -/
def runPass (st : WatcherState) (snap : Snapshot) : WatcherState × List Emitted :=
  if snap.lastUpdate ≤ st.lastUpdateTimestamp then (st, [])
  else
    let names := projectNames snap.projects
    let r1 := processEntities "project" names snap.tasks snap.ttProject st.lastSessionEndMs st.cache
    let r2 := processEntities "tag" names snap.tasks snap.ttTag r1.1 r1.2.1
    ({ lastSessionEndMs := r2.1
       lastUpdateTimestamp := snap.lastUpdate
       cache := r2.2.1
       persistedCache := r2.2.1 }, r1.2.2 ++ r2.2.2)

/-- A sequence of passes within one process run, threading the state. -/
def runPasses (st : WatcherState) : List Snapshot → WatcherState
  | [] => st
  | snap :: rest => runPasses (runPass st snap).1 rest

/-! The snapshot reader, lines 87 to 100: scan the file line by line; on a line
starting with the record prefix, look for an open brace; when present, take the
substring from that brace to end of line and stop; when absent, keep scanning.
The for-else reports the not-found case, distinct from the exception handler
that reports an I O or parse failure. -/

/-- The tail of the line from its first open brace, or none when the line has
no open brace: line.find of the open brace followed by the slice. -/
def bracePart : List Char → Option (List Char)
  | [] => none
  | c :: rest => if c = '{' then some (c :: rest) else bracePart rest

/-- Character-by-character string prefix test, the semantics of the Python
startswith call. -/
def beginsWith : List Char → List Char → Bool
  | [], _ => true
  | _ :: _, [] => false
  | p :: ps, c :: cs => p = c && beginsWith ps cs

/-- The test of line 90: the line starts with the record marker. -/
def hasMarker (line : String) : Bool := beginsWith "pf_".toList line.toList

/-- The scan loop of lines 89 to 94, over the lines of the file. -/
def scanForRecord : List String → Option String
  | [] => none
  | line :: rest =>
    if hasMarker line then
      match bracePart line.toList with
      | some cs => some (String.mk cs)
      | none => scanForRecord rest
    else scanForRecord rest

/-- The three exits of the read step of parse_backup_and_send: the payload
handed to the JSON decoder, the not-found report of line 96, and the failure
report of line 99. -/
inductive ReadOutcome where
  | found (payload : String)
  | notFound
  | readError
deriving Repr, DecidableEq

/-- The read step: ioOk models whether opening and reading the file succeeds
(false lands in the exception handler of lines 98 to 99). -/
def readBackup (ioOk : Bool) (lines : List String) : ReadOutcome :=
  if ioOk then
    match scanForRecord lines with
    | some payload => ReadOutcome.found payload
    | none => ReadOutcome.notFound
  else ReadOutcome.readError

/-! Instrumented pass for the failure analysis: the same walk, with a budget of
insert_event calls after which the next call raises. The raise aborts the pass
after the current task's in-memory cache update (lines 140 to 142 precede line
151) and before the mark update of lines 155 to 156 for the current session,
and save_cache on line 158 is never reached. -/

/-- The task loop with an insert budget; error carries the in-memory cache at
the moment the insert raises. -/
def processTasksF (day : String) :
    Nat → List Task → Cache → Except Cache (Nat × Cache)
  | budget, [], cache => Except.ok (budget, cache)
  | budget, t :: rest, cache =>
    let spent := (lookupA t.timeSpentOnDay day).getD 0
    let cache1 := cacheSet cache t.id day spent
    match budget with
    | 0 => Except.error cache1
    | b + 1 => processTasksF day b rest cache1

/-- The day loop with an insert budget; error carries the mark and cache at
the raise point. -/
def processDaysF (src pid pn : String) (tasks : List (String × Task)) :
    Nat → List (String × SessionRec) → Int → Cache →
    Except (Int × Cache) (Nat × Int × Cache)
  | budget, [], mark, cache => Except.ok (budget, mark, cache)
  | budget, (day, sess) :: rest, mark, cache =>
    if truthy sess.s = true ∧ truthy sess.e = true ∧ mark < sess.e.getD 0 then
      match processTasksF day budget (associatedTasks tasks pid day) cache with
      | Except.error c => Except.error (mark, c)
      | Except.ok (b1, c1) =>
        let endMs := sess.e.getD 0
        let mark1 := if mark < endMs then endMs else mark
        processDaysF src pid pn tasks b1 rest mark1 c1
    else processDaysF src pid pn tasks budget rest mark cache

/-- The entity loop with an insert budget. -/
def processEntitiesF (src : String) (names : List (String × String))
    (tasks : List (String × Task)) :
    Nat → TrackTable → Int → Cache → Except (Int × Cache) (Nat × Int × Cache)
  | budget, [], mark, cache => Except.ok (budget, mark, cache)
  | budget, (pid, days) :: rest, mark, cache =>
    match processDaysF src pid (lookupD names pid pid) tasks budget days mark cache with
    | Except.error r => Except.error r
    | Except.ok (b1, m1, c1) => processEntitiesF src names tasks b1 rest m1 c1

/-- The pass in which the insert_event call number k (counting from zero)
raises. Returns the module-level state left behind and whether the raise
happened; when it did, the persisted cache is untouched because save_cache was
never reached, while last_update_timestamp was already advanced on line 106. -/
def runPassFail (st : WatcherState) (snap : Snapshot) (k : Nat) :
    WatcherState × Bool :=
  if snap.lastUpdate ≤ st.lastUpdateTimestamp then (st, false)
  else
    let names := projectNames snap.projects
    match processEntitiesF "project" names snap.tasks k snap.ttProject
        st.lastSessionEndMs st.cache with
    | Except.error (m, c) =>
      ({ lastSessionEndMs := m, lastUpdateTimestamp := snap.lastUpdate,
         cache := c, persistedCache := st.persistedCache }, true)
    | Except.ok (b1, m1, c1) =>
      match processEntitiesF "tag" names snap.tasks b1 snap.ttTag m1 c1 with
      | Except.error (m, c) =>
        ({ lastSessionEndMs := m, lastUpdateTimestamp := snap.lastUpdate,
           cache := c, persistedCache := st.persistedCache }, true)
      | Except.ok (_, m2, c2) =>
        ({ lastSessionEndMs := m2, lastUpdateTimestamp := snap.lastUpdate,
           cache := c2, persistedCache := c2 }, false)

/-! A second pass definition written from the specification text rather than
from the source, for comparison: the specification says the running mark is
only compared per candidate against the value held at the start of the pass
and is set only after the full walk to the maximum of its old value and the
maximum end among qualifying sessions. -/

/-- Modelled from the spec: the day loop with the comparison mark frozen at
its pass-start value mark0. -/
def processDaysDeferred (src pid pn : String) (tasks : List (String × Task))
    (mark0 : Int) :
    List (String × SessionRec) → Cache → Cache × List Emitted
  | [], cache => (cache, [])
  | (day, sess) :: rest, cache =>
    if truthy sess.s = true ∧ truthy sess.e = true ∧ mark0 < sess.e.getD 0 then
      let r1 := processTasks src pn day (sess.s.getD 0) (sess.e.getD 0)
        (associatedTasks tasks pid day) cache
      let r2 := processDaysDeferred src pid pn tasks mark0 rest r1.1
      (r2.1, r1.2 ++ r2.2)
    else processDaysDeferred src pid pn tasks mark0 rest cache

/-- Modelled from the spec: the entity loop with the frozen comparison mark. -/
def processEntitiesDeferred (src : String) (names : List (String × String))
    (tasks : List (String × Task)) (mark0 : Int) :
    TrackTable → Cache → Cache × List Emitted
  | [], cache => (cache, [])
  | (pid, days) :: rest, cache =>
    let r1 := processDaysDeferred src pid (lookupD names pid pid) tasks mark0 days cache
    let r2 := processEntitiesDeferred src names tasks mark0 rest r1.1
    (r2.1, r1.2 ++ r2.2)

/-- The session ends, in discovery order, of the sessions of one entity whose
start and end are both present and nonzero. -/
def validEndsOfDays : List (String × SessionRec) → List Int
  | [] => []
  | (_, sess) :: rest =>
    if truthy sess.s && truthy sess.e then sess.e.getD 0 :: validEndsOfDays rest
    else validEndsOfDays rest

/-- The valid session ends of a whole tracking dimension, in discovery order. -/
def validEndsOfEntities : TrackTable → List Int
  | [] => []
  | e :: rest => validEndsOfDays e.2 ++ validEndsOfEntities rest

/-- All valid session ends of a snapshot, project dimension first. -/
def validEnds (snap : Snapshot) : List Int :=
  validEndsOfEntities snap.ttProject ++ validEndsOfEntities snap.ttTag

/-- Modelled from the spec: the whole pass with the per-candidate comparison
against the pass-start mark, and the mark set after the walk to the maximum of
its old value and the qualifying session ends. -/
def runPassDeferredMark (st : WatcherState) (snap : Snapshot) :
    WatcherState × List Emitted :=
  if snap.lastUpdate ≤ st.lastUpdateTimestamp then (st, [])
  else
    let names := projectNames snap.projects
    let mark0 := st.lastSessionEndMs
    let r1 := processEntitiesDeferred "project" names snap.tasks mark0 snap.ttProject st.cache
    let r2 := processEntitiesDeferred "tag" names snap.tasks mark0 snap.ttTag r1.1
    let newMark :=
      List.foldl max mark0 ((validEnds snap).filter (fun e => decide (mark0 < e)))
    ({ lastSessionEndMs := newMark, lastUpdateTimestamp := snap.lastUpdate,
       cache := r2.1, persistedCache := r2.1 }, r1.2 ++ r2.2)

/-! Concrete fixtures used by counterexamples and witnesses. -/

/-- The end-to-end scenario of the specification: lastUpdate 1000, one project
p1 titled Work, project-dimension entry p1.day1 with start 1000 and end 61000,
one task t1 owned by p1 with 60 seconds spent on day1. -/
def snapScenario : Snapshot :=
  { lastUpdate := 1000
    tasks := [("t1",
      { id := "t1", title := some "Coding", projectId := some "p1",
        timeSpentOnDay := [("day1", 60)] })]
    projects := [("p1", { title := some "Work" })]
    ttProject := [("p1", [("day1", { s := some 1000, e := some 61000 })])]
    ttTag := [] }

/-- A snapshot whose project dimension holds two sessions for entity p1, the
first ending at 100 and the second at 50, each with an associated task day. -/
def snapTwoSessions : Snapshot :=
  { lastUpdate := 5
    tasks := [("t1",
      { id := "t1", title := some "T", projectId := some "p1",
        timeSpentOnDay := [("d1", 5), ("d2", 7)] })]
    projects := [("p1", { title := some "P" })]
    ttProject := [("p1",
      [("d1", { s := some 10, e := some 100 }),
       ("d2", { s := some 20, e := some 50 })])]
    ttTag := [] }

/-- A snapshot reporting 150 cumulative seconds for task t1 on day d1. -/
def snapDelta : Snapshot :=
  { lastUpdate := 7
    tasks := [("t1",
      { id := "t1", title := some "T", projectId := some "p1",
        timeSpentOnDay := [("d1", 150)] })]
    projects := [("p1", { title := some "P" })]
    ttProject := [("p1", [("d1", { s := some 1, e := some 2 })])]
    ttTag := [] }

/-- A state whose cache already holds 100 seconds for task t1 on day d1. -/
def stCache100 : WatcherState :=
  { lastSessionEndMs := 0, lastUpdateTimestamp := 0,
    cache := [("t1", [("d1", 100)])], persistedCache := [("t1", [("d1", 100)])] }

/-- A state whose cache already holds 180 seconds for task t1 on day d1, so
the snapshot value 150 yields a negative delta. -/
def stCache180 : WatcherState :=
  { lastSessionEndMs := 0, lastUpdateTimestamp := 0,
    cache := [("t1", [("d1", 180)])], persistedCache := [("t1", [("d1", 180)])] }

/-- A snapshot whose project p1 exists but has no title field. -/
def snapNoTitle : Snapshot :=
  { lastUpdate := 3
    tasks := [("t1",
      { id := "t1", title := some "T", projectId := some "p1",
        timeSpentOnDay := [("d1", 9)] })]
    projects := [("p1", { title := none })]
    ttProject := [("p1", [("d1", { s := some 1, e := some 2 })])]
    ttTag := [] }

/-- A snapshot whose tracking entity px has no entry in project.entities. -/
def snapOrphan : Snapshot :=
  { lastUpdate := 3
    tasks := [("t1",
      { id := "t1", title := some "T", projectId := some "px",
        timeSpentOnDay := [("d1", 9)] })]
    projects := []
    ttProject := [("px", [("d1", { s := some 1, e := some 2 })])]
    ttTag := [] }

/-! Helper lemmas about the walk. -/

/-- Every event produced by the task loop carries the session fields it was
called with: dimension name, display name, start as timestamp, the duration in
seconds as exact division by 1000, and the session end. -/
theorem processTasks_mem (src pn day : String) (startMs endMs : Int) :
    ∀ (ts : List Task) (cache : Cache) (em : Emitted),
      em ∈ (processTasks src pn day startMs endMs ts cache).2 →
      em.source = src ∧ em.projectOrTagId = pn ∧ em.timestampMs = startMs ∧
        em.durationMs = endMs - startMs ∧ em.endMs = endMs
  | [], cache, em => by simp [processTasks]
  | t :: rest, cache, em => by
    intro hmem
    simp only [processTasks, List.mem_cons] at hmem
    rcases hmem with h | h
    · subst h; exact ⟨rfl, rfl, rfl, rfl, rfl⟩
    · exact processTasks_mem src pn day startMs endMs rest _ em h

/-- The task loop emits exactly one event per associated task. -/
theorem processTasks_length (src pn day : String) (startMs endMs : Int) :
    ∀ (ts : List Task) (cache : Cache),
      (processTasks src pn day startMs endMs ts cache).2.length = ts.length
  | [], cache => by simp [processTasks]
  | t :: rest, cache => by
    simp only [processTasks, List.length_cons]
    rw [processTasks_length src pn day startMs endMs rest]

/-- An initial value is bounded by a left max-fold over it. -/
theorem le_foldl_max : ∀ (l : List Int) (a : Int), a ≤ l.foldl max a
  | [], a => le_refl a
  | x :: l, a => le_trans (le_max_left a x) (le_foldl_max l (max a x))

/-- The mark returned by the day loop is the running maximum of the entry mark
and the valid session ends, independent of the cache and the tasks. -/
theorem processDays_mark (src pid pn : String) (tasks : List (String × Task)) :
    ∀ (days : List (String × SessionRec)) (mark : Int) (cache : Cache),
      (processDays src pid pn tasks days mark cache).1 =
        List.foldl max mark (validEndsOfDays days)
  | [], mark, cache => by simp [processDays, validEndsOfDays]
  | (day, sess) :: rest, mark, cache => by
    by_cases h : truthy sess.s = true ∧ truthy sess.e = true ∧ mark < sess.e.getD 0
    · obtain ⟨hs, he, hlt⟩ := h
      simp only [processDays, if_pos (And.intro hs (And.intro he hlt))]
      rw [processDays_mark src pid pn tasks rest]
      simp only [validEndsOfDays, hs, he, Bool.and_self, if_pos]
      rw [List.foldl_cons, if_pos hlt, max_eq_right (le_of_lt hlt)]
    · simp only [processDays, if_neg h]
      rw [processDays_mark src pid pn tasks rest]
      by_cases hv : truthy sess.s = true ∧ truthy sess.e = true
      · have hle : sess.e.getD 0 ≤ mark := by
          rcases le_or_lt (sess.e.getD 0) mark with h1 | h1
          · exact h1
          · exact absurd ⟨hv.1, hv.2, h1⟩ h
        simp only [validEndsOfDays, hv.1, hv.2, Bool.and_self, if_pos]
        rw [List.foldl_cons, max_eq_left hle]
      · have hb : (truthy sess.s && truthy sess.e) = false := by
          cases hs : truthy sess.s <;> cases he : truthy sess.e <;> simp_all
        simp only [validEndsOfDays, hb, if_neg Bool.false_ne_true]

/-- The day loop never lowers the mark. -/
theorem processDays_mark_le (src pid pn : String) (tasks : List (String × Task))
    (days : List (String × SessionRec)) (mark : Int) (cache : Cache) :
    mark ≤ (processDays src pid pn tasks days mark cache).1 := by
  rw [processDays_mark]; exact le_foldl_max _ mark

/-- Every event produced by the day loop comes from a session whose end
exceeds the mark the loop was entered with. -/
theorem processDays_mem_end (src pid pn : String) (tasks : List (String × Task)) :
    ∀ (days : List (String × SessionRec)) (mark : Int) (cache : Cache)
      (em : Emitted), em ∈ (processDays src pid pn tasks days mark cache).2.2 →
      mark < em.endMs
  | [], mark, cache, em => by simp [processDays]
  | (day, sess) :: rest, mark, cache, em => by
    intro hmem
    by_cases h : truthy sess.s = true ∧ truthy sess.e = true ∧ mark < sess.e.getD 0
    · obtain ⟨hs, he, hlt⟩ := h
      simp only [processDays, if_pos (And.intro hs (And.intro he hlt)),
        List.mem_append] at hmem
      rcases hmem with hmem | hmem
      · have := processTasks_mem src pn day (sess.s.getD 0) (sess.e.getD 0) _ _ em hmem
        rw [this.2.2.2.2]; exact hlt
      · have hrec := processDays_mem_end src pid pn tasks rest
          (if mark < sess.e.getD 0 then sess.e.getD 0 else mark) _ em hmem
        rcases (by split <;> omega :
          mark ≤ if mark < sess.e.getD 0 then sess.e.getD 0 else mark) with h2
        omega
    · simp only [processDays, if_neg h] at hmem
      exact processDays_mem_end src pid pn tasks rest mark cache em hmem

/-- The mark returned by the entity loop of one dimension is the running
maximum of the entry mark and the valid session ends of the dimension. -/
theorem processEntities_mark (src : String) (names : List (String × String))
    (tasks : List (String × Task)) :
    ∀ (es : TrackTable) (mark : Int) (cache : Cache),
      (processEntities src names tasks es mark cache).1 =
        List.foldl max mark (validEndsOfEntities es)
  | [], mark, cache => by simp [processEntities, validEndsOfEntities]
  | (pid, days) :: rest, mark, cache => by
    simp only [processEntities, validEndsOfEntities, List.foldl_append]
    rw [processEntities_mark src names tasks rest, processDays_mark]

/-- The entity loop never lowers the mark. -/
theorem processEntities_mark_le (src : String) (names : List (String × String))
    (tasks : List (String × Task)) (es : TrackTable) (mark : Int) (cache : Cache) :
    mark ≤ (processEntities src names tasks es mark cache).1 := by
  rw [processEntities_mark]; exact le_foldl_max _ mark

/-- Every event produced by the entity loop comes from a session whose end
exceeds the mark the loop was entered with. -/
theorem processEntities_mem_end (src : String) (names : List (String × String))
    (tasks : List (String × Task)) :
    ∀ (es : TrackTable) (mark : Int) (cache : Cache) (em : Emitted),
      em ∈ (processEntities src names tasks es mark cache).2.2 → mark < em.endMs
  | [], mark, cache, em => by simp [processEntities]
  | (pid, days) :: rest, mark, cache, em => by
    intro hmem
    simp only [processEntities, List.mem_append] at hmem
    rcases hmem with hmem | hmem
    · exact processDays_mem_end src pid _ tasks days mark cache em hmem
    · have h1 := processDays_mark_le src pid (lookupD names pid pid) tasks days mark cache
      have h2 := processEntities_mem_end src names tasks rest _ _ em hmem
      omega

/-- A pass whose freshness gate fails is a no-op returning the state intact. -/
theorem runPass_gate (st : WatcherState) (snap : Snapshot)
    (h : snap.lastUpdate ≤ st.lastUpdateTimestamp) : runPass st snap = (st, []) := by
  simp [runPass, if_pos h]

/-- A pass whose freshness gate passes records the snapshot lastUpdate. -/
theorem runPass_lastUpdate (st : WatcherState) (snap : Snapshot)
    (h : st.lastUpdateTimestamp < snap.lastUpdate) :
    (runPass st snap).1.lastUpdateTimestamp = snap.lastUpdate := by
  simp [runPass, if_neg (not_le.mpr h)]

/-- The mark after any pass bounds the mark before it. -/
theorem runPass_mark_le (st : WatcherState) (snap : Snapshot) :
    st.lastSessionEndMs ≤ (runPass st snap).1.lastSessionEndMs := by
  by_cases h : snap.lastUpdate ≤ st.lastUpdateTimestamp
  · rw [runPass_gate st snap h]
  · simp only [runPass, if_neg h]
    exact le_trans (processEntities_mark_le _ _ _ _ _ _)
      (processEntities_mark_le _ _ _ _ _ _)

/-- The recorded lastUpdate after any pass bounds the one before it. -/
theorem runPass_lastUpdate_le (st : WatcherState) (snap : Snapshot) :
    st.lastUpdateTimestamp ≤ (runPass st snap).1.lastUpdateTimestamp := by
  by_cases h : snap.lastUpdate ≤ st.lastUpdateTimestamp
  · rw [runPass_gate st snap h]
  · simp only [runPass, if_neg h]
    exact le_of_lt (not_le.mp h)

/-- Every event of a pass comes from a session whose end exceeds the mark held
at the start of the pass. -/
theorem runPass_mem_end (st : WatcherState) (snap : Snapshot) (em : Emitted)
    (hmem : em ∈ (runPass st snap).2) : st.lastSessionEndMs < em.endMs := by
  by_cases h : snap.lastUpdate ≤ st.lastUpdateTimestamp
  · rw [runPass_gate st snap h] at hmem; simp at hmem
  · simp only [runPass, if_neg h, List.mem_append] at hmem
    rcases hmem with hmem | hmem
    · exact processEntities_mem_end _ _ _ _ _ _ em hmem
    · have h1 := processEntities_mark_le "project" (projectNames snap.projects)
        snap.tasks snap.ttProject st.lastSessionEndMs st.cache
      have h2 := processEntities_mem_end "tag" (projectNames snap.projects)
        snap.tasks snap.ttTag _ _ em hmem
      omega

/-- The mark never decreases across a run of passes. -/
theorem runPasses_mark_le (st : WatcherState) :
    ∀ (ss : List Snapshot), st.lastSessionEndMs ≤ (runPasses st ss).lastSessionEndMs
  | [] => le_refl _
  | snap :: rest =>
    le_trans (runPass_mark_le st snap) (runPasses_mark_le (runPass st snap).1 rest)

/-- The recorded lastUpdate never decreases across a run of passes. -/
theorem runPasses_lastUpdate_le (st : WatcherState) :
    ∀ (ss : List Snapshot),
      st.lastUpdateTimestamp ≤ (runPasses st ss).lastUpdateTimestamp
  | [] => le_refl _
  | snap :: rest =>
    le_trans (runPass_lastUpdate_le st snap)
      (runPasses_lastUpdate_le (runPass st snap).1 rest)

/-- A fixture: the one event the end-to-end scenario produces. -/
def emScenario : Emitted :=
  { source := "project", projectOrTagId := "Work", title := "Coding",
    day := "day1", timeDiff := 60, timestampMs := 1000,
    durationMs := 60000, endMs := 61000 }

/-- C1: counterexample. In snapTwoSessions both valid session ends, 100 and
then 50 in discovery order, exceed the mark 0 held at the start of the pass,
yet the pass from the source emits one event only, while the pass written from
the words of the spec (mark compared per candidate against the pass-start
value, updated only after the full walk) emits two: the source updates the
mark eagerly inside the walk, so the claim is false as stated. -/
theorem eager_mark_update_counterexample :
    validEnds snapTwoSessions = [100, 50] ∧
    initialState.lastSessionEndMs = 0 ∧
    (runPass initialState snapTwoSessions).2.length = 1 ∧
    (runPassDeferredMark initialState snapTwoSessions).2.length = 2 := by
  decide

/-- C1 (amended): the high-water mark is compared and updated per candidate
session, eagerly during the walk, so discovery order matters within a pass;
after a gate-passing pass its value equals the running maximum of the value
held at the start of the pass and the ends of all sessions of the pass with
present, nonzero start and end. -/
theorem mark_fold_after_pass (st : WatcherState) (snap : Snapshot)
    (h : st.lastUpdateTimestamp < snap.lastUpdate) :
    (runPass st snap).1.lastSessionEndMs =
      List.foldl max st.lastSessionEndMs (validEnds snap) := by
  simp only [runPass, if_neg (not_le.mpr h)]
  rw [processEntities_mark, processEntities_mark]
  simp [validEnds, List.foldl_append]

/-- Witness for the amended C1 on the end-to-end scenario. -/
theorem mark_fold_after_pass_witness :
    (runPass initialState snapScenario).1.lastSessionEndMs =
      List.foldl max initialState.lastSessionEndMs (validEnds snapScenario) :=
  mark_fold_after_pass initialState snapScenario (by decide)

/-- C2: the freshness gate. A pass over a snapshot whose lastUpdate does not
exceed the recorded value is a no-op returning zero events with the state,
marks and caches included, unchanged; when lastUpdate is greater it becomes
the recorded value; and a repeated pass over an unchanged snapshot always
yields zero events. -/
theorem freshness_gate_noop (st : WatcherState) (snap : Snapshot) :
    (snap.lastUpdate ≤ st.lastUpdateTimestamp → runPass st snap = (st, [])) ∧
    (st.lastUpdateTimestamp < snap.lastUpdate →
      (runPass st snap).1.lastUpdateTimestamp = snap.lastUpdate) ∧
    runPass (runPass st snap).1 snap = ((runPass st snap).1, []) := by
  refine ⟨runPass_gate st snap, runPass_lastUpdate st snap, ?_⟩
  apply runPass_gate
  by_cases h : snap.lastUpdate ≤ st.lastUpdateTimestamp
  · rw [runPass_gate st snap h]; exact h
  · rw [runPass_lastUpdate st snap (not_le.mp h)]

/-- Witness for C2: a stale snapshot is a no-op, a fresh one records its
lastUpdate, and the second pass over the same snapshot emits nothing. -/
theorem freshness_gate_noop_witness :
    runPass stCache100 { snapDelta with lastUpdate := 0 } = (stCache100, []) ∧
    (runPass initialState snapScenario).1.lastUpdateTimestamp =
      snapScenario.lastUpdate ∧
    runPass (runPass initialState snapScenario).1 snapScenario =
      ((runPass initialState snapScenario).1, []) :=
  ⟨(freshness_gate_noop stCache100 _).1 (by decide),
   (freshness_gate_noop initialState snapScenario).2.1 (by decide),
   (freshness_gate_noop initialState snapScenario).2.2⟩

/-- C3: no duplicate emission within a run. For any state reached at the end
of an earlier pass, any sequence of intervening passes, and any later pass,
every event the later pass emits comes from a session whose end strictly
exceeds the mark recorded at the earlier point, so a session with end at or
below that mark never re-appears. -/
theorem no_duplicate_emission (st : WatcherState) (ss : List Snapshot)
    (snap : Snapshot) (em : Emitted)
    (hmem : em ∈ (runPass (runPasses st ss) snap).2) :
    st.lastSessionEndMs < em.endMs :=
  lt_of_le_of_lt (runPasses_mark_le st ss) (runPass_mem_end _ snap em hmem)

/-- Witness for C3 on the end-to-end scenario, with no intervening passes. -/
theorem no_duplicate_emission_witness :
    initialState.lastSessionEndMs < emScenario.endMs :=
  no_duplicate_emission initialState [] snapScenario emScenario (by decide)

/-- C4: the per-task delta. For an associated task the reported delta is the
current cumulative seconds for the day minus the cached value defaulting to
zero, the cache entry is set to the current value unconditionally, and one
event is emitted per associated task whatever the delta; concretely, cache
value 100 against snapshot value 150 reports delta 50 and leaves 150 in the
cache, and cache value 180 still emits one event, with delta -30. -/
theorem delta_reported_not_filtered :
    (∀ (src pn day : String) (startMs endMs : Int) (t : Task) (cache : Cache),
      processTasks src pn day startMs endMs [t] cache =
        (cacheSet cache t.id day ((lookupA t.timeSpentOnDay day).getD 0),
         [{ source := src, projectOrTagId := pn,
            title := t.title.getD "Unnamed Task", day := day,
            timeDiff := (lookupA t.timeSpentOnDay day).getD 0 -
              cacheGet cache t.id day,
            timestampMs := startMs,
            durationMs := endMs - startMs,
            endMs := endMs }])) ∧
    (∀ (src pn day : String) (startMs endMs : Int) (ts : List Task)
      (cache : Cache),
      (processTasks src pn day startMs endMs ts cache).2.length = ts.length) ∧
    ((runPass stCache100 snapDelta).2.map Emitted.timeDiff = [50] ∧
      cacheGet (runPass stCache100 snapDelta).1.cache "t1" "d1" = 150) ∧
    ((runPass stCache180 snapDelta).2.map Emitted.timeDiff = [-30] ∧
      cacheGet (runPass stCache180 snapDelta).1.cache "t1" "d1" = 150) := by
  refine ⟨fun src pn day startMs endMs t cache => rfl,
    processTasks_length, by decide, by decide⟩

/-- C5: one event per (session, associated task) pair, with timestamp the
session start as an epoch-millisecond UTC instant, duration (end - start) /
1000 seconds, and payload dimension name, resolved display name and task
title; on the end-to-end scenario exactly the one expected event is produced
and the cache afterwards maps t1 to day1 := 60. -/
theorem per_pair_event_scenario :
    runPass initialState snapScenario =
      ({ lastSessionEndMs := 61000, lastUpdateTimestamp := 1000,
         cache := [("t1", [("day1", 60)])],
         persistedCache := [("t1", [("day1", 60)])] }, [emScenario]) ∧
    emScenario.timestampMs = 1000 ∧ emScenario.durationSecQ = 60 ∧
    emScenario.source = "project" ∧ emScenario.projectOrTagId = "Work" ∧
    emScenario.title = "Coding" ∧
    (∀ (src pn day : String) (startMs endMs : Int) (ts : List Task)
      (cache : Cache) (em : Emitted),
      em ∈ (processTasks src pn day startMs endMs ts cache).2 →
      em.source = src ∧ em.projectOrTagId = pn ∧ em.timestampMs = startMs ∧
        em.durationSecQ = ((endMs - startMs : Int) : ℚ) / 1000) := by
  refine ⟨by decide, by decide, ?_, by decide, by decide, by decide, ?_⟩
  · norm_num [Emitted.durationSecQ, emScenario]
  · intro src pn day startMs endMs ts cache em hmem
    have h := processTasks_mem src pn day startMs endMs ts cache em hmem
    exact ⟨h.1, h.2.1, h.2.2.1, by rw [Emitted.durationSecQ, h.2.2.2.1]⟩

/-- Witness for C5: the general per-pair field law applied to the task list of
the end-to-end scenario. -/
theorem per_pair_event_scenario_witness :
    emScenario.source = "project" ∧ emScenario.projectOrTagId = "Work" ∧
    emScenario.timestampMs = 1000 ∧
    emScenario.durationSecQ = ((61000 - 1000 : Int) : ℚ) / 1000 :=
  per_pair_event_scenario.2.2.2.2.2.2 "project" "Work" "day1" 1000 61000
    [{ id := "t1", title := some "Coding", projectId := some "p1",
       timeSpentOnDay := [("day1", 60)] }] [] emScenario (by decide)

/-- C6: the skip rules of the walk. An absent or zero field is exactly a falsy
one; a session whose start or end is falsy, or whose end does not exceed the
current running mark, is skipped with no event, no error and no state change;
and a session passing both checks contributes exactly the events of its
associated tasks before the walk continues with the mark raised to its end. -/
theorem session_skip_rules :
    truthy none = false ∧ truthy (some 0) = false ∧
    (∀ v : Int, v ≠ 0 → truthy (some v) = true) ∧
    (∀ (src pid pn day : String) (tasks : List (String × Task))
      (sess : SessionRec) (rest : List (String × SessionRec)) (mark : Int)
      (cache : Cache),
      (¬(truthy sess.s = true ∧ truthy sess.e = true ∧ mark < sess.e.getD 0) →
        processDays src pid pn tasks ((day, sess) :: rest) mark cache =
          processDays src pid pn tasks rest mark cache) ∧
      ((truthy sess.s = true ∧ truthy sess.e = true ∧ mark < sess.e.getD 0) →
        processDays src pid pn tasks ((day, sess) :: rest) mark cache =
          (let r1 := processTasks src pn day (sess.s.getD 0) (sess.e.getD 0)
            (associatedTasks tasks pid day) cache
           let r2 := processDays src pid pn tasks rest (sess.e.getD 0) r1.1
           (r2.1, r2.2.1, r1.2 ++ r2.2.2)))) := by
  refine ⟨rfl, by decide, fun v hv => by simp [truthy, hv], ?_⟩
  intro src pid pn day tasks sess rest mark cache
  constructor
  · intro h
    simp only [processDays, if_neg h]
  · intro h
    simp only [processDays, if_pos h, if_pos h.2.2]

/-- Witness for C6: a session with an absent start is skipped, and the
truthiness laws at concrete values. -/
theorem session_skip_rules_witness :
    processDays "project" "p1" "P" [] [("d1", { s := none, e := some 5 })] 0 [] =
      processDays "project" "p1" "P" [] [] 0 [] ∧
    truthy (some 7) = true :=
  ⟨(session_skip_rules.2.2.2 "project" "p1" "P" "d1" []
      { s := none, e := some 5 } [] 0 []).1 (by decide),
   session_skip_rules.2.2.1 7 (by decide)⟩

/-- C7: counterexample. Project p1 exists in project.entities without a
title; the claim says the display name then defaults to the raw id p1, but
the pass resolves it to the placeholder Unnamed Project. -/
theorem untitled_project_counterexample :
    lookupD (projectNames [("p1", { title := none })]) "p1" "p1" =
      "Unnamed Project" ∧
    (runPass initialState snapNoTitle).2.map Emitted.projectOrTagId =
      ["Unnamed Project"] ∧
    ("Unnamed Project" : String) ≠ "p1" := by decide

/-- C7 (amended): name resolution maps an id to its project title when the
title is present, to the placeholder Unnamed Project when the project exists
without a title, and to the raw id when the id is absent from
project.entities; an orphaned reference resolves to the raw id and the pass
still emits rather than failing. -/
theorem project_name_resolution_amended :
    (∀ (projects : List (String × Project)) (pid : String),
      lookupD (projectNames projects) pid pid =
        (match lookupA projects pid with
         | some p => p.title.getD "Unnamed Project"
         | none => pid)) ∧
    (runPass initialState snapOrphan).2.map Emitted.projectOrTagId = ["px"] := by
  refine ⟨?_, by decide⟩
  intro projects pid
  induction projects with
  | nil => rfl
  | cons hd tl ih =>
    by_cases h : hd.1 = pid
    · simp [projectNames, lookupD, lookupA, h]
    · simpa [projectNames, lookupD, lookupA, h] using ih

/-- C8: counterexample. The first line beginning with the record prefix is
pf_x, which contains no open brace; the claim says the scan never reads lines
past the first matching line, yet the scan continues and returns the payload
found on the second prefixed line. -/
theorem scan_reads_past_prefix_line :
    hasMarker "pf_x" = true ∧
    scanForRecord ["pf_x"] = none ∧
    scanForRecord ["pf_x", "pf_\x7ba\x7d"] = some "\x7ba\x7d" := by decide

/-- The scan returns none on a list with no line that both starts with the
prefix and contains an open brace. -/
theorem scanForRecord_none (lines : List String)
    (h : ∀ l ∈ lines, hasMarker l = false ∨ bracePart l.toList = none) :
    scanForRecord lines = none := by
  induction lines with
  | nil => rfl
  | cons line rest ih =>
    have hl := h line (List.mem_cons_self _ _)
    have hrest := ih (fun l hm => h l (List.mem_cons_of_mem _ hm))
    rcases hl with hl | hl
    · simp [scanForRecord, hl, hrest]
    · cases hp : hasMarker line
      · simp [scanForRecord, hp, hrest]
      · simp only [String.toList] at hl
        simp [scanForRecord, hp, hl, hrest]

/-- The scan result is determined by the part of the file up to and including
its first line that starts with the prefix and contains an open brace: no
later line is read. -/
theorem scanForRecord_found (line : String) (cs : List Char)
    (hp : hasMarker line = true) (hb : bracePart line.toList = some cs) :
    ∀ (pre post : List String),
      (∀ l ∈ pre, hasMarker l = false ∨ bracePart l.toList = none) →
      scanForRecord (pre ++ line :: post) = some (String.mk cs) := by
  intro pre
  induction pre with
  | nil =>
    intro post _
    simp only [String.toList] at hb
    simp [scanForRecord, hp, hb]
  | cons l0 pre ih =>
    intro post h
    have hl := h l0 (List.mem_cons_self _ _)
    have hrec := ih post (fun l hm => h l (List.mem_cons_of_mem _ hm))
    rcases hl with hl | hl
    · simpa [scanForRecord, hl] using hrec
    · cases hp0 : hasMarker l0
      · simpa [scanForRecord, hp0] using hrec
      · simp only [String.toList] at hl
        simpa [scanForRecord, hp0, hl] using hrec

/-- C8 (amended): the scan stops at the first line that both begins with the
record prefix and contains an open brace, reading no later line, and a
prefixed line without an open brace is passed over while the scan continues;
when no such line exists the read reports NotFound, an outcome distinct from
the ReadError of an I O or parse failure. -/
theorem scan_first_prefix_brace_line :
    (∀ (pre : List String) (line : String) (post : List String)
      (cs : List Char),
      (∀ l ∈ pre, hasMarker l = false ∨ bracePart l.toList = none) →
      hasMarker line = true → bracePart line.toList = some cs →
      scanForRecord (pre ++ line :: post) = some (String.mk cs)) ∧
    (∀ (lines : List String),
      (∀ l ∈ lines, hasMarker l = false ∨ bracePart l.toList = none) →
      readBackup true lines = ReadOutcome.notFound) ∧
    ReadOutcome.notFound ≠ ReadOutcome.readError :=
  ⟨fun pre line post cs h hp hb => scanForRecord_found line cs hp hb pre post h,
   fun lines h => by simp [readBackup, scanForRecord_none lines h],
   by decide⟩

/-- Witness for the amended C8: the scan ignores both the leading lines
without a usable record and everything after the first usable line, and a
file with no usable line reports NotFound. -/
theorem scan_first_prefix_brace_line_witness :
    scanForRecord (["pf_x", "other"] ++ "pf_\x7ba\x7d" :: ["tail"]) =
      some (String.mk ['{', 'a', '}']) ∧
    readBackup true ["pf_x", "nope"] = ReadOutcome.notFound :=
  ⟨scan_first_prefix_brace_line.1 ["pf_x", "other"] "pf_\x7ba\x7d" ["tail"]
      ['{', 'a', '}'] (by decide) (by decide) (by decide),
   scan_first_prefix_brace_line.2.1 ["pf_x", "nope"] (by decide)⟩

/-! Faithfulness of the instrumented pass: with a budget at least the number
of events the plain pass emits, no raise happens and the instrumented pass
computes exactly the state of the plain pass. -/

/-- The instrumented task loop with enough budget agrees with the plain one. -/
theorem processTasksF_ok (src pn day : String) (startMs endMs : Int) :
    ∀ (ts : List Task) (cache : Cache) (b : Nat), ts.length ≤ b →
      processTasksF day b ts cache =
        Except.ok (b - ts.length,
          (processTasks src pn day startMs endMs ts cache).1)
  | [], cache, b, _ => by simp [processTasksF, processTasks]
  | t :: rest, cache, b, h => by
    cases b with
    | zero => simp at h
    | succ b =>
      simp only [processTasksF, processTasks]
      rw [processTasksF_ok src pn day startMs endMs rest _ b
        (by simpa using h)]
      simp [Nat.succ_sub_succ]

/-- The instrumented day loop with enough budget agrees with the plain one. -/
theorem processDaysF_ok (src pid pn : String) (tasks : List (String × Task)) :
    ∀ (days : List (String × SessionRec)) (mark : Int) (cache : Cache) (b : Nat),
      (processDays src pid pn tasks days mark cache).2.2.length ≤ b →
      processDaysF src pid pn tasks b days mark cache =
        Except.ok
          (b - (processDays src pid pn tasks days mark cache).2.2.length,
           (processDays src pid pn tasks days mark cache).1,
           (processDays src pid pn tasks days mark cache).2.1)
  | [], mark, cache, b, _ => by simp [processDaysF, processDays]
  | (day, sess) :: rest, mark, cache, b, h => by
    by_cases hc : truthy sess.s = true ∧ truthy sess.e = true ∧
        mark < sess.e.getD 0
    · have hlen : ∀ c : Cache,
        (processTasks src pn day (sess.s.getD 0) (sess.e.getD 0)
          (associatedTasks tasks pid day) c).2.length =
          (associatedTasks tasks pid day).length :=
        fun c => processTasks_length src pn day _ _ _ c
      simp only [processDays, processDaysF, if_pos hc, List.length_append,
        hlen] at h ⊢
      have h1 : (associatedTasks tasks pid day).length ≤ b := by omega
      simp only [processTasksF_ok src pn day (sess.s.getD 0) (sess.e.getD 0)
        (associatedTasks tasks pid day) cache b h1]
      rw [processDaysF_ok src pid pn tasks rest _ _
        (b - (associatedTasks tasks pid day).length) (by omega)]
      have : b - (associatedTasks tasks pid day).length -
          (processDays src pid pn tasks rest
            (if mark < sess.e.getD 0 then sess.e.getD 0 else mark)
            (processTasks src pn day (sess.s.getD 0) (sess.e.getD 0)
              (associatedTasks tasks pid day) cache).1).2.2.length =
          b - ((associatedTasks tasks pid day).length +
            (processDays src pid pn tasks rest
              (if mark < sess.e.getD 0 then sess.e.getD 0 else mark)
              (processTasks src pn day (sess.s.getD 0) (sess.e.getD 0)
                (associatedTasks tasks pid day) cache).1).2.2.length) := by
        omega
      rw [this]
    · simp only [processDays, processDaysF, if_neg hc] at h ⊢
      exact processDaysF_ok src pid pn tasks rest mark cache b h

/-- The instrumented entity loop with enough budget agrees with the plain
one. -/
theorem processEntitiesF_ok (src : String) (names : List (String × String))
    (tasks : List (String × Task)) :
    ∀ (es : TrackTable) (mark : Int) (cache : Cache) (b : Nat),
      (processEntities src names tasks es mark cache).2.2.length ≤ b →
      processEntitiesF src names tasks b es mark cache =
        Except.ok
          (b - (processEntities src names tasks es mark cache).2.2.length,
           (processEntities src names tasks es mark cache).1,
           (processEntities src names tasks es mark cache).2.1)
  | [], mark, cache, b, _ => by simp [processEntitiesF, processEntities]
  | (pid, days) :: rest, mark, cache, b, h => by
    simp only [processEntities, processEntitiesF, List.length_append] at h ⊢
    have h1 : (processDays src pid (lookupD names pid pid) tasks days mark
        cache).2.2.length ≤ b := by omega
    simp only [processDaysF_ok src pid (lookupD names pid pid) tasks days mark
      cache b h1]
    rw [processEntitiesF_ok src names tasks rest _ _ _ (by omega)]
    have : b - (processDays src pid (lookupD names pid pid) tasks days mark
          cache).2.2.length -
        (processEntities src names tasks rest
          (processDays src pid (lookupD names pid pid) tasks days mark cache).1
          (processDays src pid (lookupD names pid pid) tasks days mark
            cache).2.1).2.2.length =
        b - ((processDays src pid (lookupD names pid pid) tasks days mark
            cache).2.2.length +
          (processEntities src names tasks rest
            (processDays src pid (lookupD names pid pid) tasks days mark
              cache).1
            (processDays src pid (lookupD names pid pid) tasks days mark
              cache).2.1).2.2.length) := by
      omega
    rw [this]

/-- A pass whose budget covers all its events never raises and leaves exactly
the state of the plain pass. -/
theorem runPassFail_no_raise (st : WatcherState) (snap : Snapshot) (k : Nat)
    (hk : (runPass st snap).2.length ≤ k) :
    runPassFail st snap k = ((runPass st snap).1, false) := by
  by_cases hg : snap.lastUpdate ≤ st.lastUpdateTimestamp
  · rw [runPass_gate st snap hg]
    simp [runPassFail, if_pos hg]
  · simp only [runPass, runPassFail, if_neg hg, List.length_append] at hk ⊢
    simp only [processEntitiesF_ok "project" (projectNames snap.projects)
      snap.tasks snap.ttProject st.lastSessionEndMs st.cache k (by omega)]
    simp only [processEntitiesF_ok "tag" (projectNames snap.projects)
      snap.tasks snap.ttTag
      (processEntities "project" (projectNames snap.projects) snap.tasks
        snap.ttProject st.lastSessionEndMs st.cache).1
      (processEntities "project" (projectNames snap.projects) snap.tasks
        snap.ttProject st.lastSessionEndMs st.cache).2.1
      (k - (processEntities "project" (projectNames snap.projects) snap.tasks
        snap.ttProject st.lastSessionEndMs st.cache).2.2.length)
      (by omega)]

/-- C9: both high-water components start at zero and never decrease: across
any single pass and across any sequence of passes of one run, neither the
last emitted session end nor the last processed lastUpdate is ever assigned
a smaller value than it holds. -/
theorem high_water_marks_monotone :
    initialState.lastSessionEndMs = 0 ∧ initialState.lastUpdateTimestamp = 0 ∧
    (∀ (st : WatcherState) (snap : Snapshot),
      st.lastSessionEndMs ≤ (runPass st snap).1.lastSessionEndMs ∧
      st.lastUpdateTimestamp ≤ (runPass st snap).1.lastUpdateTimestamp) ∧
    (∀ (st : WatcherState) (ss : List Snapshot),
      st.lastSessionEndMs ≤ (runPasses st ss).lastSessionEndMs ∧
      st.lastUpdateTimestamp ≤ (runPasses st ss).lastUpdateTimestamp) :=
  ⟨rfl, rfl,
   fun st snap => ⟨runPass_mark_le st snap, runPass_lastUpdate_le st snap⟩,
   fun st ss => ⟨runPasses_mark_le st ss, runPasses_lastUpdate_le st ss⟩⟩

/-- C10: a pass that passes the freshness gate and then raises at some
insert_event call leaves the recorded lastUpdate already advanced to the
snapshot value (it was assigned before any event was sent and is not rolled
back), leaves the persisted cache untouched because save_cache was never
reached, and a retried pass over the same snapshot is a no-op emitting zero
events. -/
theorem failed_pass_gate_advanced (st : WatcherState) (snap : Snapshot) (k : Nat)
    (hgate : st.lastUpdateTimestamp < snap.lastUpdate)
    (hfail : (runPassFail st snap k).2 = true) :
    (runPassFail st snap k).1.lastUpdateTimestamp = snap.lastUpdate ∧
    (runPassFail st snap k).1.persistedCache = st.persistedCache ∧
    runPass (runPassFail st snap k).1 snap = ((runPassFail st snap k).1, []) := by
  have hne : ¬ snap.lastUpdate ≤ st.lastUpdateTimestamp := not_le.mpr hgate
  simp only [runPassFail, if_neg hne] at hfail ⊢
  cases h1 : processEntitiesF "project" (projectNames snap.projects) snap.tasks k
      snap.ttProject st.lastSessionEndMs st.cache with
  | error r =>
    obtain ⟨m, c⟩ := r
    simp only [h1]
    exact ⟨trivial, trivial, runPass_gate _ snap (le_refl _)⟩
  | ok r =>
    obtain ⟨b1, m1, c1⟩ := r
    simp only [h1] at hfail ⊢
    cases h2 : processEntitiesF "tag" (projectNames snap.projects) snap.tasks b1
        snap.ttTag m1 c1 with
    | error r2 =>
      obtain ⟨m, c⟩ := r2
      simp only [h2]
      exact ⟨trivial, trivial, runPass_gate _ snap (le_refl _)⟩
    | ok r2 =>
      obtain ⟨b2, m2, c2⟩ := r2
      simp only [h2] at hfail
      exact Bool.noConfusion hfail

/-- Witness for C10: the pass over the end-to-end scenario whose very first
insert raises. -/
theorem failed_pass_gate_advanced_witness :
    (runPassFail initialState snapScenario 0).1.lastUpdateTimestamp =
      snapScenario.lastUpdate ∧
    (runPassFail initialState snapScenario 0).1.persistedCache =
      initialState.persistedCache ∧
    runPass (runPassFail initialState snapScenario 0).1 snapScenario =
      ((runPassFail initialState snapScenario 0).1, []) :=
  failed_pass_gate_advanced initialState snapScenario 0 (by decide) (by decide)

end AwSp
